import Mathlib

/-!
Verification development for the BIM-processor service
(`services/bim-processor`): element classifier, IFC/Revit extraction
pipeline, bounding-box geometry, and the processing-job state machine.

Each definition is a shallow embedding of the corresponding Python
function; Python `Optional` becomes `Option`, raised exceptions become
`Except.error`, mutable job-store updates become an explicit list of
successive job snapshots, and the classifier's mutable memoization
dictionary becomes an explicitly passed association list.
-/

namespace BimProcessor

/-- `models.ElementCategory` (models.py): the closed category taxonomy. -/
inductive ElementCategory where
  | wall | floor | column | beam | roof | door | window
  | stair | railing | foundation | slab | other
deriving DecidableEq, Repr

/-- `models.ProcessingStatus` (models.py). -/
inductive ProcessingStatus where
  | uploading | processing | ready | error
deriving DecidableEq, Repr

/-- The universe of Python property values that reach the classifier in
this service: strings, integers and `None`.  `properties` dictionaries are
embedded as association lists over this type. -/
inductive PyVal where
  | vStr (s : String)
  | vInt (n : Int)
  | vNone
deriving DecidableEq, Repr

/-- Python `str(v)` on the embedded value universe. -/
def PyVal.toStr : PyVal → String
  | .vStr s => s
  | .vInt n => toString n
  | .vNone => "None"

/-- Python truthiness (`if v:`) on the embedded value universe. -/
def PyVal.truthy : PyVal → Bool
  | .vStr s => !(s == "")
  | .vInt n => !(n == 0)
  | .vNone => false

/-- A Python `Dict[str, Any]` property bag, in insertion order. -/
def PropBag := List (String × PyVal)

/-- ASCII lowercase of one character, the `str.lower` action on the ASCII
strings this service handles (a structurally reducible equivalent of
`Char.toLower`). -/
def charLower (c : Char) : Char :=
  if 65 ≤ c.toNat ∧ c.toNat ≤ 90 then Char.ofNat (c.toNat + 32) else c

/-- Python `s.lower()` (ASCII). -/
def strToLower (s : String) : String := ⟨s.data.map charLower⟩

/-- Python `needle in haystack` substring test on strings. -/
def strContains (haystack needle : String) : Bool :=
  decide (needle.data <:+: haystack.data)

/-- Python whitespace stripping as performed by `int(s)`. -/
def strTrim (s : String) : String :=
  ⟨((s.data.dropWhile Char.isWhitespace).reverse.dropWhile
      Char.isWhitespace).reverse⟩

/-- Python `s.endswith(suffix)`. -/
def strEndsWith (s suffixStr : String) : Bool :=
  decide (suffixStr.data <:+ s.data)

/-- `ElementClassifier.IFC_TYPE_MAPPING` (element_classifier.py lines 32-55),
in source order. -/
def IFC_TYPE_MAPPING : List (String × ElementCategory) :=
  [("IfcWall", .wall),
   ("IfcWallStandardCase", .wall),
   ("IfcCurtainWall", .wall),
   ("IfcSlab", .floor),
   ("IfcSlabStandardCase", .floor),
   ("IfcColumn", .column),
   ("IfcColumnStandardCase", .column),
   ("IfcBeam", .beam),
   ("IfcBeamStandardCase", .beam),
   ("IfcRoof", .roof),
   ("IfcDoor", .door),
   ("IfcDoorStandardCase", .door),
   ("IfcWindow", .window),
   ("IfcWindowStandardCase", .window),
   ("IfcStair", .stair),
   ("IfcStairFlight", .stair),
   ("IfcRailing", .railing),
   ("IfcRailingType", .railing),
   ("IfcFooting", .foundation),
   ("IfcPile", .foundation),
   ("IfcCovering", .other),
   ("IfcBuildingElementProxy", .other)]

/-- `ElementClassifier.REVIT_CATEGORY_MAPPING` (element_classifier.py
lines 58-71). -/
def REVIT_CATEGORY_MAPPING : List (Int × ElementCategory) :=
  [(-2000011, .wall),
   (-2000032, .floor),
   (-2000038, .slab),
   (-2000100, .column),
   (-2000012, .beam),
   (-2000035, .roof),
   (-2000023, .door),
   (-2000014, .window),
   (-2000120, .stair),
   (-2000126, .railing),
   (-2000080, .foundation),
   (-2000175, .foundation)]

/-- `ElementClassifier.CATEGORY_KEYWORDS` (element_classifier.py lines
74-85), in dictionary insertion order — iteration order matters for the
first-hit rule. -/
def CATEGORY_KEYWORDS : List (ElementCategory × List String) :=
  [(.wall, ["wall", "partition", "curtain"]),
   (.floor, ["floor", "slab", "deck"]),
   (.column, ["column", "post", "pillar"]),
   (.beam, ["beam", "girder", "joist", "truss"]),
   (.roof, ["roof", "roofing"]),
   (.door, ["door", "entry", "gate"]),
   (.window, ["window", "glazing"]),
   (.stair, ["stair", "step"]),
   (.railing, ["railing", "handrail", "guardrail", "balustrade"]),
   (.foundation, ["foundation", "footing", "pile", "pier"])]

/-- `" ".join(str(v).lower() for v in properties.values() if v)`
(element_classifier.py line 210). -/
def propertyText (properties : PropBag) : String :=
  String.intercalate " "
    (((properties.map Prod.snd).filter PyVal.truthy).map
      (fun v => strToLower v.toStr))

/-- The inner double loop of `_classify_by_properties` /
`_classify_by_name`: the first category, in `CATEGORY_KEYWORDS` iteration
order, one of whose keywords is a substring of `text`. -/
def firstKeywordHit (text : String) : Option ElementCategory :=
  (CATEGORY_KEYWORDS.find? (fun p => p.2.any (fun kw => strContains text kw))).map
    Prod.fst

/-- `ElementClassifier._classify_by_properties` (element_classifier.py
lines 199-217). -/
def classifyByProperties (properties : PropBag) : ElementCategory :=
  match firstKeywordHit (propertyText properties) with
  | some c => c
  | none => .other

/-- `ElementClassifier._classify_by_name` (element_classifier.py lines
219-240). -/
def classifyByName (name : String) : ElementCategory :=
  if name = "" then .other
  else
    match firstKeywordHit (strToLower name) with
    | some c => c
    | none => .other

/-- Python truthiness of an `Optional[Dict]` argument (`if properties:`):
`None` and the empty dict are falsy. -/
def propsTruthy : Option PropBag → Bool
  | some ps => !ps.isEmpty
  | none => false

/-- Python truthiness of an `Optional[str]` argument (`if family_name:`):
`None` and the empty string are falsy. -/
def optStrTruthy : Option String → Bool
  | some s => !(s == "")
  | none => false

/-- Python f-string rendering of an `Optional[str]`. -/
def optStr : Option String → String
  | some s => s
  | none => "None"

/-- Python f-string rendering of an `Optional[int]`. -/
def optIntStr : Option Int → String
  | some n => toString n
  | none => "None"

/-- The cascade body of `ElementClassifier.classify_ifc_element`
(element_classifier.py lines 113-137), i.e. the value computed and
memoized on a cache miss: exact type mapping (unless it maps to the
catch-all `other`), then property-based, then name-based, then `other`. -/
def classifyIfcCompute (ifcType : String) (properties : Option PropBag)
    (familyName : Option String) : ElementCategory :=
  let tertiary : ElementCategory :=
    if optStrTruthy familyName then
      let c := classifyByName (familyName.getD "")
      if c ≠ ElementCategory.other then c else ElementCategory.other
    else ElementCategory.other
  let secondary : ElementCategory :=
    if propsTruthy properties then
      let c := classifyByProperties (properties.getD [])
      if c ≠ ElementCategory.other then c else tertiary
    else tertiary
  match IFC_TYPE_MAPPING.lookup ifcType with
  | some c => if c ≠ ElementCategory.other then c else secondary
  | none => secondary

/-- The classifier's memoization dictionary
(`self._classification_cache`): string key to category, most recent
binding first. -/
def Cache := List (String × ElementCategory)

/-- `cache_key = f"ifc:{ifc_type}:{family_name}"` (element_classifier.py
line 109).  Note the key does not involve `properties`. -/
def ifcCacheKey (ifcType : String) (familyName : Option String) : String :=
  "ifc:" ++ ifcType ++ ":" ++ optStr familyName

/-- `ElementClassifier.classify_ifc_element` (element_classifier.py lines
91-137) with the mutable cache made explicit: returns the category and the
cache after the call.  Every return path of the source stores the computed
category under the key before returning it. -/
def classifyIfcElement (cache : Cache) (ifcType : String)
    (properties : Option PropBag) (familyName : Option String) :
    ElementCategory × Cache :=
  let key := ifcCacheKey ifcType familyName
  match List.lookup key cache with
  | some c => (c, cache)
  | none =>
    let c := classifyIfcCompute ifcType properties familyName
    (c, (key, c) :: cache)

/-- The cascade body of `ElementClassifier.classify_revit_element`
(element_classifier.py lines 163-197): category-id mapping, then category
name, then properties, then family name, then `other`. -/
def classifyRevitCompute (categoryId : Option Int)
    (categoryName : Option String) (properties : Option PropBag)
    (familyName : Option String) : ElementCategory :=
  let quaternary : ElementCategory :=
    if optStrTruthy familyName then
      let c := classifyByName (familyName.getD "")
      if c ≠ ElementCategory.other then c else ElementCategory.other
    else ElementCategory.other
  let tertiary : ElementCategory :=
    if propsTruthy properties then
      let c := classifyByProperties (properties.getD [])
      if c ≠ ElementCategory.other then c else quaternary
    else quaternary
  let secondary : ElementCategory :=
    if optStrTruthy categoryName then
      let c := classifyByName (categoryName.getD "")
      if c ≠ ElementCategory.other then c else tertiary
    else tertiary
  match categoryId with
  | some cid =>
    match REVIT_CATEGORY_MAPPING.lookup cid with
    | some c => c
    | none => secondary
  | none => secondary

/-- `cache_key = f"revit:{category_id}:{category_name}:{family_name}"`
(element_classifier.py line 159). -/
def revitCacheKey (categoryId : Option Int) (categoryName : Option String)
    (familyName : Option String) : String :=
  "revit:" ++ optIntStr categoryId ++ ":" ++ optStr categoryName ++ ":" ++
    optStr familyName

/-- `ElementClassifier.classify_revit_element` (element_classifier.py
lines 139-197) with the cache made explicit. -/
def classifyRevitElement (cache : Cache) (categoryId : Option Int)
    (categoryName : Option String) (properties : Option PropBag)
    (familyName : Option String) : ElementCategory × Cache :=
  let key := revitCacheKey categoryId categoryName familyName
  match List.lookup key cache with
  | some c => (c, cache)
  | none =>
    let c := classifyRevitCompute categoryId categoryName properties familyName
    (c, (key, c) :: cache)

/-- `ElementClassifier.clear_cache` (element_classifier.py lines
348-351). -/
def clearCache (_cache : Cache) : Cache := []

/-- Python `int(s)` on a string: optional surrounding whitespace, optional
sign, a non-empty digit run; `none` models the raised `ValueError`. -/
def parsePyInt (s : String) : Option Int :=
  let t := strTrim s
  let digitsVal (ds : List Char) : Option Int :=
    if ds ≠ [] ∧ ds.all Char.isDigit then
      some (Int.ofNat (ds.foldl (fun acc d => acc * 10 + d.toNat - 48) 0))
    else none
  match t.data with
  | '-' :: ds => (digitsVal ds).map Neg.neg
  | '+' :: ds => digitsVal ds
  | ds => digitsVal ds

/-- Lines 259-264 of `get_classification_confidence`: starting from 0.0,
an exact IFC-type hit on the assigned category sets confidence 1.0. -/
def confIfcStep (elementType : String) (category : ElementCategory) : ℚ :=
  match IFC_TYPE_MAPPING.lookup elementType with
  | some c => if c = category then 1 else 0
  | none => 0

/-- Lines 267-276: when confidence is still below 1.0, try to parse the
element type as a Revit category id and check the Revit mapping; a
`ValueError` from `int()` is swallowed. -/
def confRevitStep (elementType : String) (category : ElementCategory)
    (confidence : ℚ) : ℚ :=
  if confidence < 1 then
    match parsePyInt elementType with
    | some n =>
      match REVIT_CATEGORY_MAPPING.lookup n with
      | some c => if c = category then 1 else confidence
      | none => confidence
    | none => confidence
  else confidence

/-- Lines 279-282: with truthy properties and confidence below 1.0, a
corroborating property classification raises confidence to 0.7. -/
def confPropStep (properties : Option PropBag) (category : ElementCategory)
    (confidence : ℚ) : ℚ :=
  if propsTruthy properties ∧ confidence < 1 then
    if classifyByProperties (properties.getD []) = category then
      max confidence (7/10)
    else confidence
  else confidence

/-- `ElementClassifier.get_classification_confidence`
(element_classifier.py lines 242-288), as the sequential composition of
the three steps above followed by the 0.5 floor of lines 285-286.
Confidence is exact in the source (0.0 / 0.5 / 0.7 / 1.0 floats), so it
is embedded in `ℚ`. -/
def getClassificationConfidence (elementType : String)
    (category : ElementCategory) (properties : Option PropBag) : ℚ :=
  let c3 := confPropStep properties category
    (confRevitStep elementType category (confIfcStep elementType category))
  if c3 = 0 then 1/2 else c3

/-! ## Geometry: `IFCProcessor._calculate_bounding_box` -/

/-- A 3D point.  The source's vertices are exact float triples and the
bounding-box computation performs only comparisons (no arithmetic), so
the coordinates are embedded in `ℚ`. -/
structure Vec3 where
  x : ℚ
  y : ℚ
  z : ℚ
deriving DecidableEq, Repr

/-- `models.BoundingBox`. -/
structure BBox where
  bmin : Vec3
  bmax : Vec3
deriving DecidableEq, Repr

/-- Python `min(x :: xs)` / `max(x :: xs)` over a non-empty list. -/
def pyMin (x : ℚ) (xs : List ℚ) : ℚ := xs.foldl min x

def pyMax (x : ℚ) (xs : List ℚ) : ℚ := xs.foldl max x

/-- `IFCProcessor._calculate_bounding_box` (ifc_processor.py lines
428-462): componentwise min/max; the all-zero degenerate box for an empty
vertex list.  The numpy and the manual branch compute the same values. -/
def calculateBoundingBox : List Vec3 → BBox
  | [] => ⟨⟨0, 0, 0⟩, ⟨0, 0, 0⟩⟩
  | v :: vs =>
    ⟨⟨pyMin v.x (vs.map Vec3.x), pyMin v.y (vs.map Vec3.y),
      pyMin v.z (vs.map Vec3.z)⟩,
     ⟨pyMax v.x (vs.map Vec3.x), pyMax v.y (vs.map Vec3.y),
      pyMax v.z (vs.map Vec3.z)⟩⟩

/-! ## IFC extraction: `IFCProcessor.extract_elements` -/

/-- The outcome of `IFCProcessor._process_ifc_element` on one native
element (ifc_processor.py lines 221-262): it can raise (caught by the
per-element handler), return `None` when the element has no geometry, or
return an assembled element. -/
def ProcessOutcome (α : Type) := Except String (Option α)

/-- The per-element loop of `IFCProcessor.extract_elements`
(ifc_processor.py lines 179-188): a raising element is caught and
skipped, a `None` result (no geometry) is skipped by `if element:`, a
successful element is appended. -/
def extractElementsLoop {ι α : Type} (process : ι → ProcessOutcome α) :
    List ι → List α
  | [] => []
  | e :: rest =>
    match process e with
    | .ok (some elem) => elem :: extractElementsLoop process rest
    | .ok none => extractElementsLoop process rest
    | .error _ => extractElementsLoop process rest

/-- Whether `process` yields an element record for a native element. -/
def producesElement {ι α : Type} (process : ι → ProcessOutcome α)
    (e : ι) : Bool :=
  match process e with
  | .ok (some _) => true
  | _ => false

/-- `IFCProcessor.extract_elements` (ifc_processor.py lines 143-197) with
the environment made explicit: `avail` is `IFCOPENSHELL_AVAILABLE`,
`valid` is the message of a failed `validate_file` (or `none` when
valid), `opened` is the result of opening the file and enumerating the
building elements (a raised open aborts the extraction as a fatal
`IFCFileError`), and `process` embeds `_process_ifc_element`. -/
def ifcExtractElements {ι α : Type} (avail : Bool) (valid : Option String)
    (opened : Except String (List ι)) (process : ι → ProcessOutcome α) :
    Except String (List α) :=
  if !avail then .error "IfcOpenShell library not available"
  else
    match valid with
    | some msg => .error msg
    | none =>
      match opened with
      | .error e => .error ("Error processing IFC file: " ++ e)
      | .ok elems => .ok (extractElementsLoop process elems)

/-! ## Job state machine: `upload_bim_model` / `process_bim_model` -/

/-- The fields of a processing-job record in `processing_status_store`
that the lifecycle claims are about (main.py lines 502-514). -/
structure Job where
  status : ProcessingStatus
  progress : Nat
  errorMessage : Option String
  elementsProcessed : Nat
deriving DecidableEq, Repr

/-- The job created by `upload_bim_model` (main.py lines 502-514):
status `processing`, progress 0, no error, no elements processed. -/
def uploadJob : Job :=
  { status := .processing, progress := 0, errorMessage := none,
    elementsProcessed := 0 }

/-- The sequence of job-store states written by one invocation of
`process_bim_model` (main.py lines 569-673), in program order, starting
from job state `j0`: set status `processing` (line 582), progress 10
(583), progress 20 (597), validate (`valid` is the failure message, or
`none`), progress 30 (608), extract (`extract` is the extractor's
result), then on success progress 80 (614), `elements_processed` (615),
progress 90 (618), status `ready` (623), progress 100 (624); a validation
failure or a raised extraction error instead sets status `error` and the
error message, leaving progress untouched (lines 600-601, 658-660). -/
def jobUpdates {α : Type} (j0 : Job) (valid : Option String)
    (extract : Except String (List α)) : List Job :=
  let j1 := { j0 with status := .processing }
  let j2 := { j1 with progress := 10 }
  let j3 := { j2 with progress := 20 }
  match valid with
  | some msg =>
    [j1, j2, j3, { j3 with status := .error, errorMessage := some msg }]
  | none =>
    let j4 := { j3 with progress := 30 }
    match extract with
    | .error msg =>
      [j1, j2, j3, j4,
        { j4 with status := .error, errorMessage := some msg }]
    | .ok elems =>
      let j5 := { j4 with progress := 80 }
      let j6 := { j5 with elementsProcessed := elems.length }
      let j7 := { j6 with progress := 90 }
      let j8 := { j7 with status := .ready }
      let j9 := { j8 with progress := 100 }
      [j1, j2, j3, j4, j5, j6, j7, j8, j9]

/-! ## Revit processor: metadata and sample elements -/

/-- The slice of filesystem state the processors consult: `stat` data for
a path, or `none` when the path does not exist (so `Path(p).stat()`
raises). -/
structure FileMeta where
  isFile : Bool
  size : Nat
deriving DecidableEq, Repr

/-- OLE container metadata (`olefile` capability), as consumed by
`_extract_file_metadata`. -/
structure OleMeta where
  title : Option String
  subject : Option String
  author : Option String
  streamCount : Nat
deriving DecidableEq, Repr

/-- The metadata dictionary built by
`RevitProcessor._extract_file_metadata`. -/
structure RevitMetadata where
  fileName : String
  fileSize : Nat
  title : Option String
  subject : Option String
  author : Option String
deriving DecidableEq, Repr

/-- `RevitProcessor._extract_file_metadata` (revit_processor.py lines
168-207).  The initial dictionary literal calls
`Path(file_path).stat().st_size` OUTSIDE any try/except (line 180), so a
missing path raises (`Except.error`); only the OLE parsing below it is
wrapped in try/except and degrades to the basic metadata. -/
def revitExtractFileMetadata (fs : String → Option FileMeta)
    (ole : String → Except String OleMeta) (fileName : String)
    (path : String) : Except String RevitMetadata :=
  match fs path with
  | none => .error ("FileNotFoundError: " ++ path)
  | some meta =>
    let base : RevitMetadata :=
      { fileName := fileName, fileSize := meta.size,
        title := none, subject := none, author := none }
    match ole path with
    | .error _ => .ok base
    | .ok m =>
      .ok { base with
              title := some (m.title.getD ""),
              subject := some (m.subject.getD ""),
              author := some (m.author.getD "") }

/-- `RevitProcessor.get_project_info` (revit_processor.py lines 548-567):
it calls `_extract_file_metadata` unguarded, so its error propagates. -/
def revitGetProjectInfo (fs : String → Option FileMeta)
    (ole : String → Except String OleMeta) (fileName stem : String)
    (path : String) : Except String (String × String × String) :=
  match revitExtractFileMetadata fs ole fileName path with
  | .error e => .error e
  | .ok m =>
    .ok (match m.title with
         | some t => if t ≠ "" then t else stem
         | none => stem,
        m.subject.getD "", m.author.getD "")

/-- `RevitProcessor.get_software_version` (revit_processor.py lines
531-546): the metadata dictionary never contains a `software_version`
key, so on success the default string is always returned; the unguarded
`_extract_file_metadata` error propagates. -/
def revitGetSoftwareVersion (fs : String → Option FileMeta)
    (ole : String → Except String OleMeta) (fileName : String)
    (path : String) : Except String String :=
  match revitExtractFileMetadata fs ole fileName path with
  | .error e => .error e
  | .ok _ => .ok "Revit (version unknown)"

/-- `RevitProcessor.can_process` (revit_processor.py lines 73-94) with
`olefile` available: `.rvt` extension and a valid OLE container. -/
def revitCanProcess (isOle : String → Bool) (path : String) : Bool :=
  strEndsWith (strToLower path) ".rvt" && isOle path

/-- `RevitProcessor.validate_file` (revit_processor.py lines 96-120):
`none` means valid, otherwise the failure message. -/
def validateRevitFile (fs : String → Option FileMeta)
    (isOle : String → Bool) (path : String) : Option String :=
  match fs path with
  | none => some ("File not found: " ++ path)
  | some meta =>
    if !meta.isFile then some ("Path is not a file: " ++ path)
    else if meta.size = 0 then some "File is empty"
    else if !revitCanProcess isOle path then
      some "Not a valid Revit file format"
    else none

/-- A synthetic element as produced by
`RevitProcessor._create_sample_elements`; only the fields the claims
inspect are kept (the geometry/properties are functions of these). -/
structure SampleElement where
  externalId : String
  category : ElementCategory
  familyName : String
  typeName : String
  level : String
deriving DecidableEq, Repr

/-- The `sample_categories` table of
`RevitProcessor._create_sample_elements` (revit_processor.py lines
225-232). -/
def sampleCategories : List (ElementCategory × String × String) :=
  [(.wall, "Basic Wall", "Generic - 200mm"),
   (.floor, "Floor", "Generic - 300mm"),
   (.column, "Structural Column", "300x300mm"),
   (.beam, "Structural Framing", "W12x26"),
   (.door, "Single Door", "0915 x 2134mm"),
   (.window, "Fixed Window", "1200 x 1500mm")]

/-- `RevitProcessor._create_sample_elements` (revit_processor.py lines
209-246): one element per `sample_categories` row, with
`external_id = f"element_{idx+1}"` and `level = f"Level {(idx % 3) + 1}"`. -/
def createSampleElements : List SampleElement :=
  (List.range sampleCategories.length).zip sampleCategories |>.map
    (fun p =>
      { externalId := "element_" ++ toString (p.1 + 1),
        category := p.2.1,
        familyName := p.2.2.1,
        typeName := p.2.2.2,
        level := "Level " ++ toString (p.1 % 3 + 1) })

/-- `RevitProcessor.extract_elements` (revit_processor.py lines 122-166):
validate (raising `RevitFileError` on failure), extract file metadata
inside the try block (its failure is rewrapped as `RevitFileError`), then
return the fixed synthetic sample elements regardless of file content. -/
def revitExtractElements (fs : String → Option FileMeta)
    (isOle : String → Bool) (ole : String → Except String OleMeta)
    (fileName : String) (path : String) :
    Except String (List SampleElement) :=
  match validateRevitFile fs isOle path with
  | some msg => .error msg
  | none =>
    match revitExtractFileMetadata fs ole fileName path with
    | .error e => .error ("Error processing Revit file: " ++ e)
    | .ok _ => .ok createSampleElements

/-! ## IFC file-level metadata -/

/-- The file-level data `IFCProcessor.get_project_info` reads from an
opened IFC file. -/
structure IfcFileData where
  schema : String
  projectName : Option String
  application : Option String
  appVersion : Option String
deriving DecidableEq, Repr

/-- The project-info result of `IFCProcessor.get_project_info`; only the
fields `get_software_version` consumes are kept. -/
structure IfcProjectInfo where
  schema : String
  application : String
  version : String
deriving DecidableEq, Repr

/-- `IFCProcessor.get_project_info` (ifc_processor.py lines 540-592):
the whole body is wrapped in try/except returning `{}` on any failure,
and the unavailable-library guard also returns `{}`, so the embedding is
total — it never produces an error. -/
def ifcGetProjectInfo (avail : Bool)
    (ifcOpen : String → Except String IfcFileData) (path : String) :
    Option IfcProjectInfo :=
  if !avail then none
  else
    match ifcOpen path with
    | .error _ => none
    | .ok d =>
      some { schema := d.schema,
             application := d.application.getD "",
             version := d.appVersion.getD "" }

/-- `IFCProcessor.get_software_version` (ifc_processor.py lines 594-615):
derived from `get_project_info` with a default string fallback; total. -/
def ifcGetSoftwareVersion (avail : Bool)
    (ifcOpen : String → Except String IfcFileData) (path : String) :
    String :=
  match ifcGetProjectInfo avail ifcOpen path with
  | none => "IFC (version unknown)"
  | some info =>
    if info.application ≠ "" ∧ info.version ≠ "" then
      info.application ++ " " ++ info.version ++ " (IFC " ++ info.schema ++ ")"
    else if info.schema ≠ "" then "IFC " ++ info.schema
    else "IFC (version unknown)"

/-! ## Helper lemmas -/

theorem pyMin_cons (x a : ℚ) (xs : List ℚ) :
    pyMin x (a :: xs) = pyMin (min x a) xs := rfl

theorem pyMax_cons (x a : ℚ) (xs : List ℚ) :
    pyMax x (a :: xs) = pyMax (max x a) xs := rfl

theorem pyMin_le (x : ℚ) (xs : List ℚ) :
    pyMin x xs ≤ x ∧ ∀ y ∈ xs, pyMin x xs ≤ y := by
  induction xs generalizing x with
  | nil => simp [pyMin]
  | cons a as ih =>
    rw [pyMin_cons]
    refine ⟨le_trans (ih (min x a)).1 (min_le_left x a), ?_⟩
    intro y hy
    rcases List.mem_cons.mp hy with h | h
    · rw [h]
      exact le_trans (ih (min x a)).1 (min_le_right x a)
    · exact (ih (min x a)).2 y h

theorem le_pyMax (x : ℚ) (xs : List ℚ) :
    x ≤ pyMax x xs ∧ ∀ y ∈ xs, y ≤ pyMax x xs := by
  induction xs generalizing x with
  | nil => simp [pyMax]
  | cons a as ih =>
    rw [pyMax_cons]
    refine ⟨le_trans (le_max_left x a) (ih (max x a)).1, ?_⟩
    intro y hy
    rcases List.mem_cons.mp hy with h | h
    · rw [h]
      exact le_trans (le_max_right x a) (ih (max x a)).1
    · exact (ih (max x a)).2 y h

theorem pyMin_mem (x : ℚ) (xs : List ℚ) :
    pyMin x xs = x ∨ pyMin x xs ∈ xs := by
  induction xs generalizing x with
  | nil => simp [pyMin]
  | cons a as ih =>
    rw [pyMin_cons]
    rcases ih (min x a) with h | h
    · rcases min_choice x a with hm | hm
      · exact Or.inl (h.trans hm)
      · exact Or.inr (List.mem_cons.mpr (Or.inl (h.trans hm)))
    · exact Or.inr (List.mem_cons.mpr (Or.inr h))

theorem pyMax_mem (x : ℚ) (xs : List ℚ) :
    pyMax x xs = x ∨ pyMax x xs ∈ xs := by
  induction xs generalizing x with
  | nil => simp [pyMax]
  | cons a as ih =>
    rw [pyMax_cons]
    rcases ih (max x a) with h | h
    · rcases max_choice x a with hm | hm
      · exact Or.inl (h.trans hm)
      · exact Or.inr (List.mem_cons.mpr (Or.inl (h.trans hm)))
    · exact Or.inr (List.mem_cons.mpr (Or.inr h))

/-- C8 (claim): `bounding_box` is total with no error path; its `min` and
`max` bound every vertex componentwise, are the componentwise minimum and
maximum over the vertex set (attained on every axis for non-empty input),
and the empty vertex set yields the degenerate all-zero box.  Totality is
by construction: `calculateBoundingBox` is a plain total function. -/
theorem spec_C8 :
    calculateBoundingBox [] = ⟨⟨0, 0, 0⟩, ⟨0, 0, 0⟩⟩ ∧
    (∀ (V : List Vec3) (v : Vec3), v ∈ V →
      ((calculateBoundingBox V).bmin.x ≤ v.x ∧ v.x ≤ (calculateBoundingBox V).bmax.x) ∧
      ((calculateBoundingBox V).bmin.y ≤ v.y ∧ v.y ≤ (calculateBoundingBox V).bmax.y) ∧
      ((calculateBoundingBox V).bmin.z ≤ v.z ∧ v.z ≤ (calculateBoundingBox V).bmax.z)) ∧
    (∀ (w : Vec3) (vs : List Vec3),
      (calculateBoundingBox (w :: vs)).bmin.x ∈ (w :: vs).map Vec3.x ∧
      (calculateBoundingBox (w :: vs)).bmin.y ∈ (w :: vs).map Vec3.y ∧
      (calculateBoundingBox (w :: vs)).bmin.z ∈ (w :: vs).map Vec3.z ∧
      (calculateBoundingBox (w :: vs)).bmax.x ∈ (w :: vs).map Vec3.x ∧
      (calculateBoundingBox (w :: vs)).bmax.y ∈ (w :: vs).map Vec3.y ∧
      (calculateBoundingBox (w :: vs)).bmax.z ∈ (w :: vs).map Vec3.z) := by
  refine ⟨rfl, ?_, ?_⟩
  · intro V v hv
    match V, hv with
    | w :: vs, hv =>
      rcases List.mem_cons.mp hv with h | h
      · subst h
        exact ⟨⟨(pyMin_le v.x _).1, (le_pyMax v.x _).1⟩,
               ⟨(pyMin_le v.y _).1, (le_pyMax v.y _).1⟩,
               ⟨(pyMin_le v.z _).1, (le_pyMax v.z _).1⟩⟩
      · exact ⟨⟨(pyMin_le w.x _).2 v.x (List.mem_map_of_mem Vec3.x h),
                (le_pyMax w.x _).2 v.x (List.mem_map_of_mem Vec3.x h)⟩,
               ⟨(pyMin_le w.y _).2 v.y (List.mem_map_of_mem Vec3.y h),
                (le_pyMax w.y _).2 v.y (List.mem_map_of_mem Vec3.y h)⟩,
               ⟨(pyMin_le w.z _).2 v.z (List.mem_map_of_mem Vec3.z h),
                (le_pyMax w.z _).2 v.z (List.mem_map_of_mem Vec3.z h)⟩⟩
  · intro w vs
    have hmem : ∀ (f : Vec3 → ℚ),
        pyMin (f w) (vs.map f) ∈ (w :: vs).map f ∧
        pyMax (f w) (vs.map f) ∈ (w :: vs).map f := by
      intro f
      constructor
      · rcases pyMin_mem (f w) (vs.map f) with h | h
        · rw [h]
          exact List.mem_map_of_mem f (List.mem_cons_self w vs)
        · simp only [List.map_cons, List.mem_cons]
          exact Or.inr h
      · rcases pyMax_mem (f w) (vs.map f) with h | h
        · rw [h]
          exact List.mem_map_of_mem f (List.mem_cons_self w vs)
        · simp only [List.map_cons, List.mem_cons]
          exact Or.inr h
    exact ⟨(hmem Vec3.x).1, (hmem Vec3.y).1, (hmem Vec3.z).1,
           (hmem Vec3.x).2, (hmem Vec3.y).2, (hmem Vec3.z).2⟩

/-- Witness for `spec_C8` at a concrete vertex set and vertex. -/
theorem spec_C8_witness :
    (⟨1, 2, 3⟩ : Vec3) ∈ ([⟨1, 2, 3⟩, ⟨-1, 5, 0⟩] : List Vec3) ∧
    (((calculateBoundingBox [⟨1, 2, 3⟩, ⟨-1, 5, 0⟩]).bmin.x ≤ (⟨1, 2, 3⟩ : Vec3).x ∧
      (⟨1, 2, 3⟩ : Vec3).x ≤ (calculateBoundingBox [⟨1, 2, 3⟩, ⟨-1, 5, 0⟩]).bmax.x) ∧
     ((calculateBoundingBox [⟨1, 2, 3⟩, ⟨-1, 5, 0⟩]).bmin.y ≤ (⟨1, 2, 3⟩ : Vec3).y ∧
      (⟨1, 2, 3⟩ : Vec3).y ≤ (calculateBoundingBox [⟨1, 2, 3⟩, ⟨-1, 5, 0⟩]).bmax.y) ∧
     ((calculateBoundingBox [⟨1, 2, 3⟩, ⟨-1, 5, 0⟩]).bmin.z ≤ (⟨1, 2, 3⟩ : Vec3).z ∧
      (⟨1, 2, 3⟩ : Vec3).z ≤ (calculateBoundingBox [⟨1, 2, 3⟩, ⟨-1, 5, 0⟩]).bmax.z)) :=
  ⟨by simp, spec_C8.2.1 [⟨1, 2, 3⟩, ⟨-1, 5, 0⟩] ⟨1, 2, 3⟩ (by simp)⟩

theorem categoryKeywords_ne_other :
    ∀ p ∈ CATEGORY_KEYWORDS, p.1 ≠ ElementCategory.other := by decide

theorem firstKeywordHit_ne_other (text : String) (c : ElementCategory)
    (h : firstKeywordHit text = some c) : c ≠ ElementCategory.other := by
  unfold firstKeywordHit at h
  rcases Option.map_eq_some'.mp h with ⟨p, hp, hpc⟩
  exact hpc ▸ categoryKeywords_ne_other p (List.mem_of_find?_eq_some hp)

theorem confIfcStep_of_hit (t : String) (c : ElementCategory)
    (h : IFC_TYPE_MAPPING.lookup t = some c) : confIfcStep t c = 1 := by
  simp [confIfcStep, h]

theorem confRevitStep_one (t : String) (c : ElementCategory) :
    confRevitStep t c 1 = 1 := by
  simp [confRevitStep]

theorem confPropStep_one (p : Option PropBag) (c : ElementCategory) :
    confPropStep p c 1 = 1 := by
  simp [confPropStep]

theorem conf_exact_ifc_hit (t : String) (c : ElementCategory)
    (p : Option PropBag) (h : IFC_TYPE_MAPPING.lookup t = some c) :
    getClassificationConfidence t c p = 1 := by
  unfold getClassificationConfidence
  rw [confIfcStep_of_hit t c h, confRevitStep_one, confPropStep_one]
  norm_num

/-- Modelled from the spec's wording of the `classify_ifc` cascade
(§4.3): exact-type hit other than the catch-all returns immediately;
otherwise, with properties given, the first category in table iteration
order with a keyword substring hit in the concatenated stringified
property values wins; otherwise, with a family name given, the same
first-hit rule on that name; otherwise `other`. -/
def cascadeSpec (ifcType : String) (properties : Option PropBag)
    (familyName : Option String) : ElementCategory :=
  let nameStep : ElementCategory :=
    if optStrTruthy familyName then
      match firstKeywordHit (strToLower (familyName.getD "")) with
      | some c => c
      | none => ElementCategory.other
    else ElementCategory.other
  let propStep : ElementCategory :=
    if propsTruthy properties then
      match firstKeywordHit (propertyText (properties.getD [])) with
      | some c => c
      | none => nameStep
    else nameStep
  match IFC_TYPE_MAPPING.lookup ifcType with
  | some c => if c ≠ ElementCategory.other then c else propStep
  | none => propStep

theorem tertiary_eq_nameStep (f : Option String) :
    (if optStrTruthy f then
        let c := classifyByName (f.getD "")
        if c ≠ ElementCategory.other then c else ElementCategory.other
      else ElementCategory.other) =
    (if optStrTruthy f then
        match firstKeywordHit (strToLower (f.getD "")) with
        | some c => c
        | none => ElementCategory.other
      else ElementCategory.other) := by
  cases f with
  | none => rfl
  | some s =>
    by_cases hs : s = ""
    · subst hs; rfl
    · simp only [optStrTruthy, beq_iff_eq, hs, not_false_eq_true, Bool.not_eq_eq_eq_not,
        Bool.not_true, if_true, Option.getD_some, classifyByName, if_neg hs]
      cases h : firstKeywordHit (strToLower s) with
      | none => simp
      | some c => simp [firstKeywordHit_ne_other _ _ h]

theorem secondary_eq_propStep (p : Option PropBag) (x : ElementCategory) :
    (if propsTruthy p then
        let c := classifyByProperties (p.getD [])
        if c ≠ ElementCategory.other then c else x
      else x) =
    (if propsTruthy p then
        match firstKeywordHit (propertyText (p.getD [])) with
        | some c => c
        | none => x
      else x) := by
  by_cases hp : propsTruthy p = true
  · simp only [hp, if_true, classifyByProperties]
    cases h : firstKeywordHit (propertyText (p.getD [])) with
    | none => simp
    | some c => simp [firstKeywordHit_ne_other _ _ h]
  · simp only [Bool.not_eq_true] at hp
    simp [hp]

theorem classifyIfcCompute_eq_cascadeSpec (t : String) (p : Option PropBag)
    (f : Option String) :
    classifyIfcCompute t p f = cascadeSpec t p f := by
  unfold classifyIfcCompute cascadeSpec
  simp only []
  rw [tertiary_eq_nameStep, secondary_eq_propStep]

/-- C5 (claim): `classify_ifc` follows the fixed cascade — an exact-type
table hit other than the catch-all `other` is returned immediately (with
confidence 1.0 regardless of properties and family name); otherwise, with
properties given, the first category in table iteration order with a
keyword substring hit in the concatenated stringified property values
wins; otherwise the family name is matched by the same first-hit rule;
otherwise `other`.  In particular `classify_ifc("IfcWall") = wall` and
`classify_ifc("IfcUnknownType") = other`. -/
theorem spec_C5 :
    (∀ (t : String) (p : Option PropBag) (f : Option String),
        classifyIfcCompute t p f = cascadeSpec t p f) ∧
    (∀ (cache : Cache) (t : String) (p : Option PropBag) (f : Option String),
        List.lookup (ifcCacheKey t f) cache = none →
        (classifyIfcElement cache t p f).1 = cascadeSpec t p f) ∧
    (∀ (t : String) (p : Option PropBag) (f : Option String)
        (c : ElementCategory),
        IFC_TYPE_MAPPING.lookup t = some c → c ≠ ElementCategory.other →
        classifyIfcCompute t p f = c ∧
        getClassificationConfidence t c p = 1) ∧
    classifyIfcCompute "IfcWall" none none = ElementCategory.wall ∧
    classifyIfcCompute "IfcUnknownType" none none = ElementCategory.other := by
  refine ⟨classifyIfcCompute_eq_cascadeSpec, ?_, ?_, rfl, rfl⟩
  · intro cache t p f h
    unfold classifyIfcElement
    simp only [h]
    exact classifyIfcCompute_eq_cascadeSpec t p f
  · intro t p f c hL hc
    constructor
    · unfold classifyIfcCompute
      simp only [hL, if_pos hc]
    · exact conf_exact_ifc_hit t c p hL

/-- Witness for `spec_C5`: an empty-cache call on an unmapped type, and an
exact-hit call where conflicting properties and family name do not change
the result or its confidence. -/
theorem spec_C5_witness :
    List.lookup (ifcCacheKey "IfcUnknownType" none) ([] : Cache) = none ∧
    (classifyIfcElement [] "IfcUnknownType" none none).1 =
      cascadeSpec "IfcUnknownType" none none ∧
    IFC_TYPE_MAPPING.lookup "IfcBeam" = some ElementCategory.beam ∧
    ElementCategory.beam ≠ ElementCategory.other ∧
    classifyIfcCompute "IfcBeam" (some [("Name", PyVal.vStr "wall")])
      (some "wall") = ElementCategory.beam ∧
    getClassificationConfidence "IfcBeam" ElementCategory.beam
      (some [("Name", PyVal.vStr "wall")]) = 1 := by
  have h := spec_C5.2.2.1 "IfcBeam" (some [("Name", PyVal.vStr "wall")])
    (some "wall") ElementCategory.beam rfl (by decide)
  have h2 := spec_C5.2.1 [] "IfcUnknownType" none none rfl
  exact ⟨rfl, h2, rfl, by decide, h.1, h.2⟩

/-- C1 counterexample: the cache key omits `properties`, so clearing the
cache is observable.  After classifying `IfcBuildingElementProxy` with
properties `{"Type": "beam"}` (cached as `beam` under a key that ignores
properties), reclassifying with properties `{"Type": "wall"}` yields
`beam` from the stale cache entry, but yields `wall` after clearing the
cache — the same arguments give different categories depending on whether
the cache was cleared. -/
theorem spec_C1_counterexample :
    (classifyIfcElement
        ((classifyIfcElement [] "IfcBuildingElementProxy"
            (some [("Type", PyVal.vStr "beam")]) none).2)
        "IfcBuildingElementProxy" (some [("Type", PyVal.vStr "wall")]) none).1
      = ElementCategory.beam ∧
    (classifyIfcElement
        (clearCache ((classifyIfcElement [] "IfcBuildingElementProxy"
            (some [("Type", PyVal.vStr "beam")]) none).2))
        "IfcBuildingElementProxy" (some [("Type", PyVal.vStr "wall")]) none).1
      = ElementCategory.wall ∧
    ElementCategory.beam ≠ ElementCategory.wall := by
  refine ⟨by decide, by decide, by decide⟩

/-- C1 (amended): the cache is transparent only up to its key, which is
`(format, type, family name)` and omits `properties`.  A call whose key is
absent from the cache (in particular any call after a clear) returns the
pure cascade result, and immediately repeating a call with identical
arguments returns the same category; but clearing between two calls that
share `ifc_type` and `family_name` while differing in `properties` can
change the result (see the counterexample). -/
theorem spec_C1 (cache : Cache) (t : String) (p : Option PropBag)
    (f : Option String)
    (h : List.lookup (ifcCacheKey t f) cache = none) :
    (classifyIfcElement cache t p f).1 = classifyIfcCompute t p f ∧
    (classifyIfcElement (clearCache cache) t p f).1 =
      classifyIfcCompute t p f ∧
    (classifyIfcElement (classifyIfcElement cache t p f).2 t p f).1
      = (classifyIfcElement cache t p f).1 := by
  unfold classifyIfcElement clearCache
  simp only [h, List.lookup]
  simp

/-- Witness for `spec_C1` at the empty cache and a concrete call. -/
theorem spec_C1_witness :
    List.lookup (ifcCacheKey "IfcWall" (some "Basic Wall")) ([] : Cache)
      = none ∧
    (classifyIfcElement [] "IfcWall" none (some "Basic Wall")).1 =
      classifyIfcCompute "IfcWall" none (some "Basic Wall") ∧
    (classifyIfcElement (clearCache []) "IfcWall" none (some "Basic Wall")).1
      = classifyIfcCompute "IfcWall" none (some "Basic Wall") ∧
    (classifyIfcElement
        (classifyIfcElement [] "IfcWall" none (some "Basic Wall")).2
        "IfcWall" none (some "Basic Wall")).1
      = (classifyIfcElement [] "IfcWall" none (some "Basic Wall")).1 := by
  have h := spec_C1 [] "IfcWall" none (some "Basic Wall") rfl
  exact ⟨rfl, h.1, h.2.1, h.2.2⟩

/-- Modelled from the spec's wording (claim C6): an exact table hit on the
type (IFC map) or on the parsed category code (Revit map) assigning the
given category. -/
def exactTableHit (elementType : String) (category : ElementCategory) :
    Bool :=
  (IFC_TYPE_MAPPING.lookup elementType == some category) ||
  (match parsePyInt elementType with
   | some n => REVIT_CATEGORY_MAPPING.lookup n == some category
   | none => false)

/-- Modelled from the spec's wording (claim C6): a property-keyword match
corroborating the assigned category. -/
def propertyCorroborates (properties : Option PropBag)
    (category : ElementCategory) : Bool :=
  propsTruthy properties &&
    (classifyByProperties (properties.getD []) == category)

theorem confidence_tail (p : Option PropBag) (c : ElementCategory) :
    (if propsTruthy p ∧ (0:ℚ) < 1 then
        if classifyByProperties (p.getD []) = c then max (0:ℚ) (7/10)
        else (0:ℚ)
      else (0:ℚ))
      = (if propertyCorroborates p c then (7:ℚ)/10 else 0) := by
  unfold propertyCorroborates
  by_cases hp : propsTruthy p = true
  · by_cases hc : classifyByProperties (p.getD []) = c
    · simp [hp, hc]
      norm_num
    · simp [hp, hc]
  · simp [hp]

theorem confIfcStep_of_miss (t : String) (c : ElementCategory)
    (h : ¬ IFC_TYPE_MAPPING.lookup t = some c) : confIfcStep t c = 0 := by
  unfold confIfcStep
  rcases hL : IFC_TYPE_MAPPING.lookup t with _ | c0
  · rfl
  · have hne : ¬ c0 = c := fun hh => h (by rw [hL, hh])
    simp [hne]

theorem confidence_characterization (et : String) (c : ElementCategory)
    (p : Option PropBag) :
    getClassificationConfidence et c p =
      if exactTableHit et c then 1
      else if propertyCorroborates p c then 7/10
      else 1/2 := by
  by_cases hIfc : IFC_TYPE_MAPPING.lookup et = some c
  · rw [conf_exact_ifc_hit et c p hIfc]
    have hE : exactTableHit et c = true := by
      simp [exactTableHit, hIfc]
    rw [hE, if_pos rfl]
  · have h1 : confIfcStep et c = 0 := confIfcStep_of_miss et c hIfc
    by_cases hRev : ∃ n, parsePyInt et = some n ∧
        REVIT_CATEGORY_MAPPING.lookup n = some c
    · obtain ⟨n, hPn, hRn⟩ := hRev
      have h2 : confRevitStep et c 0 = 1 := by
        simp [confRevitStep, hPn, hRn]
      have hE : exactTableHit et c = true := by
        simp [exactTableHit, hPn, hRn]
      unfold getClassificationConfidence
      rw [h1, h2, confPropStep_one, hE, if_pos rfl]
      norm_num
    · have h2 : confRevitStep et c 0 = 0 := by
        unfold confRevitStep
        rcases hP : parsePyInt et with _ | n
        · simp [hP]
        · rcases hR : REVIT_CATEGORY_MAPPING.lookup n with _ | c1
          · simp [hP, hR]
          · have hne : ¬ c1 = c := fun hh => hRev ⟨n, hP, by rw [hR, hh]⟩
            simp [hP, hR, hne]
      have hE : exactTableHit et c = false := by
        unfold exactTableHit
        rcases hP : parsePyInt et with _ | n
        · simp [hIfc]
        · have hne : ¬ REVIT_CATEGORY_MAPPING.lookup n = some c :=
            fun hh => hRev ⟨n, hP, hh⟩
          simp [hIfc, hne]
      unfold getClassificationConfidence
      rw [h1, h2, hE]
      simp only [Bool.false_eq_true, if_false]
      unfold confPropStep propertyCorroborates
      by_cases hp : propsTruthy p = true
      · by_cases hcat : classifyByProperties (p.getD []) = c
        · simp only [hp, hcat]
          norm_num
        · simp only [hp, hcat]
          simp [hcat]
      · simp [hp]

/-- C6 (claim): the confidence score is exactly 1.0 on an exact table hit
(type or parsed category code mapping to the assigned category), 0.7 when
there is no exact hit but a property-keyword match corroborates the
category, and 0.5 in every other case; in particular
`classify_ifc("IfcBuildingElementProxy", {"Type": "beam"})` is `beam` at
confidence 0.7 and `classify_binary_format(family_name="Basic Wall")` is
`wall` at confidence 0.5. -/
theorem spec_C6 :
    (∀ (et : String) (c : ElementCategory) (p : Option PropBag),
        getClassificationConfidence et c p =
          if exactTableHit et c then 1
          else if propertyCorroborates p c then 7/10
          else 1/2) ∧
    classifyIfcCompute "IfcBuildingElementProxy"
      (some [("Type", PyVal.vStr "beam")]) none = ElementCategory.beam ∧
    getClassificationConfidence "IfcBuildingElementProxy"
      ElementCategory.beam (some [("Type", PyVal.vStr "beam")]) = 7/10 ∧
    classifyRevitCompute none none none (some "Basic Wall") =
      ElementCategory.wall ∧
    getClassificationConfidence "Basic Wall" ElementCategory.wall none
      = 1/2 := by
  refine ⟨confidence_characterization, by decide, ?_, by decide, ?_⟩
  · rw [confidence_characterization]
    have h1 : exactTableHit "IfcBuildingElementProxy" ElementCategory.beam
        = false := by decide
    have h2 : propertyCorroborates (some [("Type", PyVal.vStr "beam")])
        ElementCategory.beam = true := by decide
    rw [h1, h2]
    simp
  · rw [confidence_characterization]
    have h1 : exactTableHit "Basic Wall" ElementCategory.wall = false := by
      decide
    have h2 : propertyCorroborates none ElementCategory.wall = false := rfl
    rw [h1, h2]
    simp

/-- C2 (claim): a job whose processing invocation completes without error
ends at status `ready`, progress 100, `elements_processed` equal to the
extractor's element count, with progress non-decreasing from job creation
through every intermediate update to the terminal state. -/
theorem spec_C2 {α : Type} (elems : List α) :
    List.Chain' (fun a b => a.progress ≤ b.progress)
      (uploadJob :: jobUpdates uploadJob none (Except.ok elems)) ∧
    (uploadJob :: jobUpdates uploadJob none (Except.ok elems)).getLast?
      = some { status := ProcessingStatus.ready, progress := 100,
               errorMessage := none, elementsProcessed := elems.length } := by
  constructor
  · norm_num [jobUpdates, uploadJob, List.chain'_cons]
  · rfl

/-- C3 (claim): a job whose extractor raises a fatal file-format error
ends at status `error` with a non-null error message and progress frozen
at the last checkpoint recorded before the failure (30, the
extraction-started checkpoint) — neither reset to 0 nor advanced, and
strictly less than 100. -/
theorem spec_C3 (msg : String) :
    (uploadJob :: jobUpdates uploadJob none
        (Except.error msg : Except String (List Unit))).map Job.progress
      = [0, 0, 10, 20, 30, 30] ∧
    (uploadJob :: jobUpdates uploadJob none
        (Except.error msg : Except String (List Unit))).getLast?
      = some { status := ProcessingStatus.error, progress := 30,
               errorMessage := some msg, elementsProcessed := 0 } ∧
    (30 : Nat) < 100 :=
  ⟨rfl, rfl, by norm_num⟩

/-- C4 counterexample: re-invoking processing on a terminal (`ready`,
progress 100) job re-enters `processing` at progress 10, not 0 — no state
written during the re-invocation ever has progress 0. -/
theorem spec_C4_counterexample :
    (jobUpdates (Job.mk ProcessingStatus.ready 100 none 5) none
        (Except.ok ([] : List Unit))).map Job.progress
      = [100, 10, 20, 30, 80, 80, 90, 90, 100] ∧
    ¬ (0 ∈ (jobUpdates (Job.mk ProcessingStatus.ready 100 none 5) none
        (Except.ok ([] : List Unit))).map Job.progress) ∧
    ((jobUpdates (Job.mk ProcessingStatus.ready 100 none 5) none
        (Except.ok ([] : List Unit))).head?).map Job.status
      = some ProcessingStatus.processing :=
  ⟨rfl, by decide, rfl⟩

/-- C4 (amended): re-invoking processing on an already-terminal job
re-enters `processing` and restarts the checkpoint sequence from its first
value 10 (then 20, 30, 80, 90, 100) — a full retry whose progress
trajectory is independent of the prior terminal progress, not a resume —
but progress is never set to 0 during the re-invocation. -/
theorem spec_C4 {α : Type} (j0 : Job) (elems : List α)
    (_h : j0.status = ProcessingStatus.ready ∨
      j0.status = ProcessingStatus.error) :
    (jobUpdates j0 none (Except.ok elems)).head?
      = some { j0 with status := ProcessingStatus.processing } ∧
    (jobUpdates j0 none (Except.ok elems)).map Job.progress
      = j0.progress :: [10, 20, 30, 80, 80, 90, 90, 100] ∧
    (∀ j ∈ (jobUpdates j0 none (Except.ok elems)).tail, j.progress ≠ 0) ∧
    (jobUpdates j0 none (Except.ok elems)).getLast?
      = some { status := ProcessingStatus.ready, progress := 100,
               errorMessage := j0.errorMessage,
               elementsProcessed := elems.length } := by
  refine ⟨rfl, rfl, ?_, rfl⟩
  intro j hj
  simp only [jobUpdates, List.tail_cons, List.mem_cons,
    List.not_mem_nil, or_false] at hj
  rcases hj with rfl | rfl | rfl | rfl | rfl | rfl | rfl | rfl <;> simp

/-- Witness for `spec_C4` at a concrete terminal job. -/
theorem spec_C4_witness :
    (((Job.mk ProcessingStatus.ready 100 none 5) : Job).status
        = ProcessingStatus.ready ∨
     ((Job.mk ProcessingStatus.ready 100 none 5) : Job).status
        = ProcessingStatus.error) ∧
    (jobUpdates (Job.mk ProcessingStatus.ready 100 none 5) none
        (Except.ok ([()] : List Unit))).map Job.progress
      = 100 :: [10, 20, 30, 80, 80, 90, 90, 100] :=
  ⟨Or.inl rfl,
   (spec_C4 (Job.mk ProcessingStatus.ready 100 none 5) [()]
      (Or.inl rfl)).2.1⟩

/-- C7 (claim): during extraction from a valid file, a failure on any
single native element (a raised per-element exception or absent geometry)
only omits that element: the extraction still succeeds with the list of
all successfully processed elements — the returned count always equals
the number of elements whose processing yields a record; for 10 native
elements of which exactly 1 fails geometry extraction, exactly 9 records
are returned and the job still reaches `ready`. -/
theorem spec_C7 :
    (∀ {ι α : Type} (process : ι → ProcessOutcome α) (es : List ι),
        (extractElementsLoop process es).length
          = es.countP (producesElement process)) ∧
    ifcExtractElements true none (Except.ok (List.range 10))
        (fun i => if i = 3 then Except.ok none else Except.ok (some i))
      = Except.ok [0, 1, 2, 4, 5, 6, 7, 8, 9] ∧
    (extractElementsLoop
        (fun i => if i = 3 then (Except.ok none : ProcessOutcome Nat)
          else Except.ok (some i)) (List.range 10)).length = 9 ∧
    ifcExtractElements true none (Except.ok [0])
        (fun _ : Nat => (Except.error "geometry boom" : ProcessOutcome Nat))
      = Except.ok ([] : List Nat) ∧
    (uploadJob :: jobUpdates uploadJob none (Except.ok (extractElementsLoop
        (fun i => if i = 3 then (Except.ok none : ProcessOutcome Nat)
          else Except.ok (some i)) (List.range 10)))).getLast?.map Job.status
      = some ProcessingStatus.ready := by
  refine ⟨?_, rfl, rfl, rfl, rfl⟩
  intro ι α process es
  induction es with
  | nil => rfl
  | cons e rest ih =>
    cases hp : process e with
    | error s =>
      simp [extractElementsLoop, hp, producesElement, List.countP_cons, ih]
    | ok o =>
      cases o with
      | none =>
        simp [extractElementsLoop, hp, producesElement, List.countP_cons, ih]
      | some a =>
        simp [extractElementsLoop, hp, producesElement, List.countP_cons, ih]

/-- C9 counterexample: the claim fails for the binary-format (Revit)
processor — `get_project_info` on a non-existent path propagates the
`stat()` failure (revit_processor.py line 180 runs outside any
try/except) instead of returning an empty result. -/
theorem spec_C9_counterexample :
    revitGetProjectInfo (fun _ => none) (fun _ => Except.error "not ole")
      "missing.rvt" "missing" "/tmp/missing.rvt"
      = Except.error "FileNotFoundError: /tmp/missing.rvt" := rfl

/-- C9 (amended): the IFC processor's `get_project_info` /
`get_software_version` never raise — any open failure yields the empty
result / default version string; the Revit processor's counterparts never
raise **provided the path's `stat()` succeeds** (OLE metadata failures
are caught and degrade to basic metadata), but a missing path makes them
raise (see the counterexample). -/
theorem spec_C9 (avail : Bool)
    (ifcOpen : String → Except String IfcFileData)
    (fs : String → Option FileMeta) (ole : String → Except String OleMeta)
    (fileName stem path : String) :
    (∀ e, ifcOpen path = Except.error e →
        ifcGetProjectInfo avail ifcOpen path = none ∧
        ifcGetSoftwareVersion avail ifcOpen path = "IFC (version unknown)") ∧
    (∀ meta, fs path = some meta →
        (∃ r, revitGetProjectInfo fs ole fileName stem path = Except.ok r) ∧
        revitGetSoftwareVersion fs ole fileName path
          = Except.ok "Revit (version unknown)") := by
  constructor
  · intro e he
    cases avail with
    | false => exact ⟨rfl, rfl⟩
    | true =>
      refine ⟨?_, ?_⟩
      · simp [ifcGetProjectInfo, he]
      · simp [ifcGetSoftwareVersion, ifcGetProjectInfo, he]
  · intro meta hm
    have hmeta : ∃ m,
        revitExtractFileMetadata fs ole fileName path = Except.ok m := by
      unfold revitExtractFileMetadata
      rw [hm]
      cases ho : ole path with
      | error e => exact ⟨_, rfl⟩
      | ok m => exact ⟨_, rfl⟩
    obtain ⟨m, hmm⟩ := hmeta
    constructor
    · unfold revitGetProjectInfo
      rw [hmm]
      exact ⟨_, rfl⟩
    · unfold revitGetSoftwareVersion
      rw [hmm]

/-- Witness for `spec_C9`: a failing IFC open yields the empty results,
and an existing Revit file with unreadable OLE metadata still succeeds. -/
theorem spec_C9_witness :
    (fun _ : String => (Except.error "corrupt" : Except String IfcFileData))
        "m.rvt" = Except.error "corrupt" ∧
    ifcGetProjectInfo true
      (fun _ => (Except.error "corrupt" : Except String IfcFileData))
      "m.rvt" = none ∧
    ifcGetSoftwareVersion true
      (fun _ => (Except.error "corrupt" : Except String IfcFileData))
      "m.rvt" = "IFC (version unknown)" ∧
    (fun _ : String => (some ⟨true, 7⟩ : Option FileMeta)) "m.rvt"
      = some ⟨true, 7⟩ ∧
    (∃ r, revitGetProjectInfo (fun _ => some ⟨true, 7⟩)
        (fun _ => Except.error "not ole") "m.rvt" "m" "m.rvt"
        = Except.ok r) ∧
    revitGetSoftwareVersion (fun _ => some ⟨true, 7⟩)
      (fun _ => Except.error "not ole") "m.rvt" "m.rvt"
      = Except.ok "Revit (version unknown)" := by
  have h := spec_C9 true
    (fun _ => (Except.error "corrupt" : Except String IfcFileData))
    (fun _ => some ⟨true, 7⟩) (fun _ => Except.error "not ole")
    "m.rvt" "m" "m.rvt"
  have h1 := h.1 "corrupt" rfl
  have h2 := h.2 ⟨true, 7⟩ rfl
  exact ⟨rfl, h1.1, h1.2, rfl, h2.1, h2.2⟩

/-- C10 (claim): every file passing Revit validation yields exactly the 6
synthetic placeholder elements with the fixed category sequence wall,
floor, column, beam, door, window, independent of file content (the
result is the constant `createSampleElements`). -/
theorem spec_C10 (fs : String → Option FileMeta) (isOle : String → Bool)
    (ole : String → Except String OleMeta) (fileName path : String)
    (h : validateRevitFile fs isOle path = none) :
    revitExtractElements fs isOle ole fileName path
      = Except.ok createSampleElements ∧
    createSampleElements.length = 6 ∧
    createSampleElements.map SampleElement.category
      = [ElementCategory.wall, ElementCategory.floor, ElementCategory.column,
         ElementCategory.beam, ElementCategory.door,
         ElementCategory.window] := by
  refine ⟨?_, rfl, rfl⟩
  unfold revitExtractElements
  rw [h]
  have hfs : ∃ meta, fs path = some meta := by
    cases hf : fs path with
    | none =>
      unfold validateRevitFile at h
      rw [hf] at h
      exact Option.noConfusion h
    | some m => exact ⟨m, rfl⟩
  obtain ⟨meta, hm⟩ := hfs
  unfold revitExtractFileMetadata
  rw [hm]
  cases ho : ole path with
  | error e => rfl
  | ok m => rfl

/-- Witness for `spec_C10` at a concrete valid filesystem state. -/
theorem spec_C10_witness :
    validateRevitFile (fun _ => some ⟨true, 5⟩) (fun _ => true) "a.rvt"
      = none ∧
    revitExtractElements (fun _ => some ⟨true, 5⟩) (fun _ => true)
      (fun _ => Except.error "no ole meta") "a.rvt" "a.rvt"
      = Except.ok createSampleElements := by
  have h0 : validateRevitFile (fun _ => some ⟨true, 5⟩) (fun _ => true)
      "a.rvt" = none := by decide
  exact ⟨h0, (spec_C10 (fun _ => some ⟨true, 5⟩) (fun _ => true)
    (fun _ => Except.error "no ole meta") "a.rvt" "a.rvt" h0).1⟩

end BimProcessor
